import Mathlib

/-!
Verification development for the openapi-mcp converter (package `convert`:
`converter.go` + `parser.go`).

The development shallowly embeds the pieces of the Go source that the
checked properties are about:

* the recursive schema walker (`processSchemaProperty`, `processSchemaItems`)
  over a graph of schema nodes (`SchemaNode`, children referenced by index
  into an environment, which lets the embedding represent the cyclic pointer
  graphs produced by OpenAPI reference resolution);
* the tool-building helpers (`GetOperationID`, the `openapi|server_addr`
  argument policy of `convertOperation`, `convertSecurityRequirements`);
* the invocation handler produced by `newHandler` (`getArgs`, URL assembly,
  body/form/header handling, the authentication chain, and the result text).

Go `map[string]X` values are modelled as association lists processed in list
order (Go iterates maps in unspecified order; none of the proved properties
depends on a particular order, and the places where order is observable are
noted).  Go mutable maps passed by reference are modelled by explicitly
returning the caller-visible state of the map.  JSON numbers are modelled as
integers (no property here involves floating point).  Strings are treated as
sequences of characters; the byte-level helpers (`asciiBytes`, escaping)
model the ASCII case, which covers every string any proof below touches.
Recursion over the possibly-cyclic schema graph is modelled with an explicit
fuel parameter: `none` for every fuel value corresponds to non-termination
of the Go recursion, and termination corresponds to `some` for all
sufficiently large fuel.
-/

/-- Model of a decoded JSON value (Go `interface{}` holding decoded JSON,
as produced by the MCP argument bag and the OpenAPI document model). -/
inductive Json where
  | null : Json
  | bool (b : Bool) : Json
  | num (n : Int) : Json
  | str (s : String) : Json
  | arr (xs : List Json) : Json
  | obj (fields : List (String × Json)) : Json

/-- True exactly for string values; models the success of the Go type
assertion `v.(string)`. -/
def Json.isStr : Json → Bool
  | Json.str _ => true
  | _ => false

/-- Join a list of strings with a separator (Go `strings.Join`). -/
def joinSep (sep : String) : List String → String
  | [] => ""
  | [x] => x
  | x :: y :: rest => x ++ sep ++ joinSep sep (y :: rest)

/-- Insert a string into a sorted list of strings (ascending). -/
def insertStr (x : String) : List String → List String
  | [] => [x]
  | y :: rest => if x < y then x :: y :: rest else y :: insertStr x rest

/-- Insertion sort on strings, used to model Go's sorted map-key iteration. -/
def sortStrings : List String → List String
  | [] => []
  | x :: rest => insertStr x (sortStrings rest)

/-- Insert a key-value pair into a key-sorted association list. -/
def insertPair {α : Type} (x : String × α) : List (String × α) → List (String × α)
  | [] => [x]
  | y :: rest => if x.1 < y.1 then x :: y :: rest else y :: insertPair x rest

/-- Insertion sort of an association list by key, used to model Go's
`url.Values.Encode` and `encoding/json` sorted map iteration. -/
def sortPairs {α : Type} : List (String × α) → List (String × α)
  | [] => []
  | x :: rest => insertPair x (sortPairs rest)

/-- Lower-case an ASCII letter, leave anything else unchanged. -/
def asciiLowerChar (c : Char) : Char :=
  if 'A' ≤ c ∧ c ≤ 'Z' then Char.ofNat (c.toNat + 32) else c

/-- Upper-case an ASCII letter, leave anything else unchanged. -/
def asciiUpperChar (c : Char) : Char :=
  if 'a' ≤ c ∧ c ≤ 'z' then Char.ofNat (c.toNat - 32) else c

/-- ASCII lower-casing of a string (model of `strings.ToLower` on the ASCII
strings used by the program). -/
def asciiLower (s : String) : String := String.mk (s.toList.map asciiLowerChar)

/-- ASCII upper-casing of a string (model of `strings.ToUpper` on the ASCII
strings used by the program). -/
def asciiUpper (s : String) : String := String.mk (s.toList.map asciiUpperChar)

/-- Boolean test for a list prefix over characters. -/
def listHasPre : List Char → List Char → Bool
  | [], _ => true
  | _ :: _, [] => false
  | a :: as, b :: bs => a == b && listHasPre as bs

/-- Model of Go `strings.HasPrefix`. -/
def strHasPre (pre s : String) : Bool := listHasPre pre.toList s.toList

/-- Drop the first `n` characters of a string.  Models Go
`strings.TrimPrefix` for the ASCII prefixes used by `getArgs` (the prefix
length in characters equals its length in bytes). -/
def strDropN (s : String) (n : Nat) : String := String.mk (s.toList.drop n)

/-- Model of Go `strings.Trim(s, "/")`: remove leading and trailing
slashes. -/
def goTrimSlash (s : String) : String :=
  String.mk (((s.toList.dropWhile (· == '/')).reverse.dropWhile (· == '/')).reverse)

/-- Split a character list on a separator character.  Like Go
`strings.Split` with a one-character separator, the result is never empty:
splitting the empty string yields a single empty part. -/
def splitOnChar (c : Char) : List Char → List (List Char)
  | [] => [[]]
  | a :: rest =>
    match splitOnChar c rest with
    | [] => [[]]
    | g :: gs => if a == c then [] :: g :: gs else (a :: g) :: gs

/-- Fuel-driven worker for `goReplaceAll`; consumes at least one input
character per step, so fuel equal to the input length suffices. -/
def replaceAllAux (pat rep : List Char) : Nat → List Char → List Char
  | 0, l => l
  | _ + 1, [] => []
  | n + 1, c :: rest =>
    if listHasPre pat (c :: rest) then
      rep ++ replaceAllAux pat rep n (List.drop pat.length (c :: rest))
    else
      c :: replaceAllAux pat rep n rest

/-- Model of Go `strings.ReplaceAll` (non-overlapping, left to right) for a
non-empty pattern; the program only replaces non-empty patterns. -/
def goReplaceAll (s pat rep : String) : String :=
  if pat = "" then s
  else String.mk (replaceAllAux pat.toList rep.toList s.toList.length s.toList)

/-- Upper-case hexadecimal digit (used by percent-escaping). -/
def hexDigitU (n : Nat) : Char :=
  if n < 10 then Char.ofNat (48 + n) else Char.ofNat (65 + n - 10)

/-- Lower-case hexadecimal digit (used by JSON `\u00xx` escapes). -/
def hexDigitL (n : Nat) : Char :=
  if n < 10 then Char.ofNat (48 + n) else Char.ofNat (97 + n - 10)

/-- Characters Go `url.QueryEscape` leaves unescaped. -/
def isUnreservedQ (c : Char) : Bool :=
  c.isAlpha || c.isDigit || c == '-' || c == '_' || c == '.' || c == '~'

/-- Model of Go `url.QueryEscape` on ASCII strings: unreserved characters
kept, space becomes `+`, everything else percent-escaped with upper-case
hex. -/
def queryEscape (s : String) : String :=
  String.join (s.toList.map (fun c =>
    if isUnreservedQ c then String.mk [c]
    else if c == ' ' then "+"
    else "%" ++ String.mk [hexDigitU (c.toNat / 16), hexDigitU (c.toNat % 16)]))

/-- Standard base64 alphabet. -/
def b64Alphabet : List Char :=
  "ABCDEFGHIJKLMNOPQRSTUVWXYZabcdefghijklmnopqrstuvwxyz0123456789+/".toList

/-- Character of the standard base64 alphabet at a 6-bit index. -/
def b64Char (n : Nat) : Char := b64Alphabet.getD n '='

/-- Standard base64 encoding with padding of a byte sequence (model of Go
`base64.StdEncoding.EncodeToString`, used by `Request.SetBasicAuth`). -/
def base64Encode : List Nat → String
  | [] => ""
  | [a] =>
    String.mk [b64Char (a / 4), b64Char (a % 4 * 16)] ++ "=="
  | [a, b] =>
    String.mk [b64Char (a / 4), b64Char (a % 4 * 16 + b / 16), b64Char (b % 16 * 4)] ++ "="
  | a :: b :: c :: rest =>
    String.mk [b64Char (a / 4), b64Char (a % 4 * 16 + b / 16),
      b64Char (b % 16 * 4 + c / 64), b64Char (c % 64)] ++ base64Encode rest

/-- Byte view of a string; models UTF-8 bytes for the ASCII strings the
proofs use. -/
def asciiBytes (s : String) : List Nat := s.toList.map Char.toNat

/-- Escape one character the way Go `encoding/json` does by default
(HTML-escaping on). -/
def jsonEscapeChar (c : Char) : String :=
  if c == '\x22' then "\\\x22"
  else if c == '\\' then "\\\\"
  else if c == '\n' then "\\n"
  else if c == '\r' then "\\r"
  else if c == '\t' then "\\t"
  else if c == '<' then "\\u003c"
  else if c == '>' then "\\u003e"
  else if c == '&' then "\\u0026"
  else if c.toNat < 32 then
    "\\u00" ++ String.mk [hexDigitL (c.toNat / 16), hexDigitL (c.toNat % 16)]
  else String.mk [c]

/-- JSON string literal for `s` (model of Go `encoding/json` string
encoding on ASCII strings). -/
def jsonQuote (s : String) : String :=
  "\x22" ++ String.join (s.toList.map jsonEscapeChar) ++ "\x22"

mutual
/-- Model of Go `json.Marshal` on decoded-JSON values: object keys are
emitted in sorted order (Go sorts map keys).  Sorting is applied to the
rendered `"key":value` strings, which for keys of ordinary printable
characters coincides with sorting by key because the closing quote sorts
below every such character. -/
def jsonRender : Json → String
  | Json.null => "null"
  | Json.bool true => "true"
  | Json.bool false => "false"
  | Json.num n => toString n
  | Json.str s => jsonQuote s
  | Json.arr xs => "[" ++ joinSep "," (jsonRenderL xs) ++ "]"
  | Json.obj m => "\x7b" ++ joinSep "," (sortStrings (jsonRenderO m)) ++ "\x7d"

/-- Render each element of a JSON array. -/
def jsonRenderL : List Json → List String
  | [] => []
  | x :: rest => jsonRender x :: jsonRenderL rest

/-- Render each field of a JSON object as a `"key":value` string. -/
def jsonRenderO : List (String × Json) → List String
  | [] => []
  | (k, v) :: rest => (jsonQuote k ++ ":" ++ jsonRender v) :: jsonRenderO rest
end

mutual
/-- Model of Go `fmt.Sprintf("%v", x)` on decoded-JSON values (numbers as
integers; map entries rendered `k:v`, sorted — Go's `fmt` sorts map keys;
here the rendered entry strings are sorted, which agrees for ordinary
keys). -/
def goStr : Json → String
  | Json.null => "<nil>"
  | Json.bool true => "true"
  | Json.bool false => "false"
  | Json.num n => toString n
  | Json.str s => s
  | Json.arr xs => "[" ++ joinSep " " (goStrL xs) ++ "]"
  | Json.obj m => "map[" ++ joinSep " " (sortStrings (goStrO m)) ++ "]"

/-- Render each element of a slice for `%v`. -/
def goStrL : List Json → List String
  | [] => []
  | x :: rest => goStr x :: goStrL rest

/-- Render each entry of a map for `%v`. -/
def goStrO : List (String × Json) → List String
  | [] => []
  | (k, v) :: rest => (k ++ ":" ++ goStr v) :: goStrO rest
end

/-- Characters allowed inside a URL scheme after the first (RFC 3986,
as implemented by Go `net/url`). -/
def isSchemeChar (c : Char) : Bool :=
  c.isAlpha || c.isDigit || c == '+' || c == '-' || c == '.'

/-- Scheme scanner modelling Go `net/url`'s `getScheme`: scan scheme
characters until a `:`; a valid scheme is non-empty, starts with a letter,
and is returned lower-cased; any other shape means no scheme. -/
def schemeScan : List Char → List Char → String
  | _, [] => ""
  | acc, c :: rest =>
    if c == ':' then
      match acc.reverse with
      | [] => ""
      | a :: as => if a.isAlpha then String.mk ((a :: as).map asciiLowerChar) else ""
    else if isSchemeChar c then schemeScan (c :: acc) rest
    else ""

/-- Scheme of a URL string (empty if none). -/
def urlScheme (u : String) : String := schemeScan [] u.toList

/-- Whether Go `http.DefaultClient.Do` would accept the URL's scheme; for
any other scheme the transport fails with `unsupported protocol scheme`
before anything is sent. -/
def schemeOk (u : String) : Bool := urlScheme u == "http" || urlScheme u == "https"

/-- Embedding of `Parser.GetOperationID` (parser.go): the explicit
operation id if present, otherwise a name generated from the lower-cased
method and the path.  `splitOnChar` (like Go `strings.Split`) never returns
an empty list, so the `else` branch producing `"root"` is kept exactly as
in the source even though it is unreachable. -/
def GetOperationID (path method operationID : String) : String :=
  if operationID ≠ "" then operationID
  else
    let pathParts := (splitOnChar '/' (goTrimSlash path).toList).map String.mk
    let pathName :=
      if pathParts.length > 0 then
        goReplaceAll (goReplaceAll (joinSep "_" pathParts) "\x7b" "") "\x7d" ""
      else "root"
    asciiLower method ++ "_" ++ pathName

/-- Embedding of the tool-name prefix step of `convertOperation`
(converter.go lines 280-283). -/
def applyToolNamePre (pre name : String) : String :=
  if pre ≠ "" then pre ++ name else name

/-- Embedding of the server selection in `Converter.Convert` (converter.go
lines 63-67): the handler is bound to the single declared server, and to no
server when the document declares zero or several. -/
def selectServer (servers : List String) : Option String :=
  if servers.length == 1 then servers.head? else none

/-- Model of one generated MCP tool argument: the observable effect of the
`mcp.WithString`/`mcp.PropertyOption` chains used by `convertOperation` and
`convertSecurityRequirements` (name, type, required flag, description,
default and enum). -/
structure ArgSpec where
  name : String
  typ : String := "string"
  required : Bool := false
  description : String := ""
  defaultVal : Option String := none
  enumVals : Option (List String) := none
deriving DecidableEq

/-- Embedding of the `openapi|server_addr` argument construction in
`convertOperation` (converter.go lines 299-323), as a function of the
declared server URLs: zero servers gives a required free-form string; one
server gives an optional string with that URL as default and as the only
enum value; several servers give a required string with the URLs as enum. -/
def serverAddrArg (servers : List String) : ArgSpec :=
  if servers.length == 0 then
    { name := "openapi|server_addr", description := "Server address to connect to",
      required := true }
  else if servers.length == 1 then
    { name := "openapi|server_addr", description := "Server address to connect to",
      defaultVal := servers.head?, enumVals := some servers }
  else
    { name := "openapi|server_addr", description := "Server address to connect to",
      required := true, enumVals := some servers }

/-- Model of an OpenAPI security scheme as read by
`convertSecurityRequirements` (`type`, HTTP sub-`scheme`, apiKey field
`name` and location `in`). -/
structure SecurityScheme where
  type : String
  scheme : String := ""
  name : String := ""
  inLoc : String := ""

/-- Embedding of the per-scheme `switch` of `convertSecurityRequirements`
(converter.go lines 425-457): the argument descriptors synthesized for one
`(schemeName, scopes)` entry. -/
def securityArgForScheme (schemeName : String) (sch : SecurityScheme)
    (scopes : List String) : List ArgSpec :=
  if sch.type == "apiKey" then
    [{ name := "openapi|auth_" ++ schemeName, required := true,
       description := "API Key for " ++ schemeName ++ " authentication (in " ++
         sch.inLoc ++ " named " ++ "'" ++ sch.name ++ "'" ++ ")" }]
  else if sch.type == "http" then
    if sch.scheme == "basic" then
      [{ name := "openapi|auth_username", required := true,
         description := "Username for Basic authentication" },
       { name := "openapi|auth_password", required := true,
         description := "Password for Basic authentication" }]
    else if sch.scheme == "bearer" then
      [{ name := "openapi|auth_token", required := true,
         description := "Bearer token for authentication" }]
    else []
  else if sch.type == "oauth2" then
    if scopes ≠ [] then
      [{ name := "openapi|auth_oauth2_token", required := true,
         description := "OAuth2 token with scopes: " ++ joinSep ", " scopes }]
    else
      [{ name := "openapi|auth_oauth2_token", required := true,
         description := "OAuth2 token for authentication" }]
  else []

/-- Look up a named security scheme (Go `securitySchemes[schemeName]` with
the nil checks of lines 420-423). -/
def lookupScheme (schemes : List (String × SecurityScheme)) (n : String) :
    Option SecurityScheme :=
  (schemes.find? (fun p => p.1 == n)).map Prod.snd

/-- Embedding of `convertSecurityRequirements` (converter.go lines
404-462): over all requirements and their `(schemeName, scopes)` entries,
synthesize the per-scheme arguments; unknown schemes contribute nothing;
with no security schemes declared the result is empty. -/
def convertSecurityRequirements (schemes : List (String × SecurityScheme))
    (reqs : List (List (String × List String))) : List ArgSpec :=
  if schemes.isEmpty then []
  else
    reqs.foldl (fun acc req =>
      req.foldl (fun acc2 kv =>
        match lookupScheme schemes kv.1 with
        | none => acc2
        | some sch => acc2 ++ securityArgForScheme kv.1 sch kv.2) acc) []

/-- Embedding of the `Args` struct of converter.go: the demultiplexed
argument bag. -/
structure Args where
  serverAddr : String := ""
  authToken : String := ""
  authUsername : String := ""
  authPassword : String := ""
  authOAuth2Token : String := ""
  headers : List (String × Json) := []
  body : Option Json := none
  query : List (String × Json) := []
  path : List (String × Json) := []
  forms : List (String × Json) := []

/-- Assignment into an association-list map (Go `m[k] = v`). -/
def mapPut (m : List (String × Json)) (k : String) (v : Json) :
    List (String × Json) :=
  m.filter (fun p => !(p.1 == k)) ++ [(k, v)]

/-- Embedding of the inner `switch strings.TrimPrefix(k, "openapi|")` of
`getArgs` (converter.go lines 216-229); any unrecognized sub-key falls into
the `default` case, which assigns the bearer-token slot. -/
def setOpenapiArg (arg : Args) (sub s : String) : Args :=
  if sub == "server_addr" then { arg with serverAddr := s }
  else if sub == "auth_token" then { arg with authToken := s }
  else if sub == "auth_username" then { arg with authUsername := s }
  else if sub == "auth_password" then { arg with authPassword := s }
  else if sub == "auth_oauth2_token" then { arg with authOAuth2Token := s }
  else { arg with authToken := s }

/-- One iteration of the `getArgs` loop (converter.go lines 213-241) on a
single bag entry.  Every `openapi|`-prefixed value goes through the
unchecked assertion `v.(string)`: a non-string value panics, modelled as
`none`.  Keys matching no recognized shape are ignored. -/
def argStep (arg : Args) (k : String) (v : Json) : Option Args :=
  if strHasPre "openapi|" k then
    match v with
    | Json.str s => some (setOpenapiArg arg (strDropN k 8) s)
    | _ => none
  else if k == "body" then some { arg with body := some v }
  else if strHasPre "query|" k then
    some { arg with query := mapPut arg.query (strDropN k 6) v }
  else if strHasPre "path|" k then
    some { arg with path := mapPut arg.path (strDropN k 5) v }
  else if strHasPre "header|" k then
    some { arg with headers := mapPut arg.headers (strDropN k 7) v }
  else if strHasPre "formData|" k then
    some { arg with forms := mapPut arg.forms (strDropN k 9) v }
  else some arg

/-- Fold of `argStep` over the remaining bag entries. -/
def getArgsFrom (arg : Args) : List (String × Json) → Option Args
  | [] => some arg
  | kv :: rest =>
    match argStep arg kv.1 kv.2 with
    | none => none
    | some a => getArgsFrom a rest

/-- Embedding of `getArgs` (converter.go lines 206-243): demultiplex a flat
argument bag into an `Args`, starting from the empty/zero value the Go code
initializes.  `none` models the panic of the unchecked `v.(string)`
assertion. -/
def getArgs (bag : List (String × Json)) : Option Args := getArgsFrom {} bag

/-- Model of the outgoing HTTP request assembled by the handler. -/
structure HttpRequest where
  method : String
  url : String
  headers : List (String × String)
  body : Option String

/-- Go `http.Header.Add`: append one header entry. -/
def goHeaderAdd (k v : String) (hs : List (String × String)) :
    List (String × String) :=
  hs ++ [(k, v)]

/-- Go `http.Header.Set`: replace every entry with the same
(canonicalized, modelled case-insensitively) key by the new one. -/
def goHeaderSet (k v : String) (hs : List (String × String)) :
    List (String × String) :=
  hs.filter (fun p => !(asciiLower p.1 == asciiLower k)) ++ [(k, v)]

/-- Go `http.Header.Get`: the first value stored under the (modelled
case-insensitively) key. -/
def getHeader (k : String) (hs : List (String × String)) : Option String :=
  (hs.find? (fun p => asciiLower p.1 == asciiLower k)).map Prod.snd

/-- Go `http.Request.SetBasicAuth`: sets the `Authorization` header to
`Basic` followed by the base64 of `username:password`. -/
def setBasicAuth (u p : String) (hs : List (String × String)) :
    List (String × String) :=
  goHeaderSet "Authorization" ("Basic " ++ base64Encode (asciiBytes (u ++ ":" ++ p))) hs

/-- Embedding of the authentication chain of the handler (converter.go
lines 151-158): `auth_token` bearer first, else basic auth when both
username and password are set, else the OAuth2 token as bearer. -/
def applyAuth (arg : Args) (hs : List (String × String)) :
    List (String × String) :=
  if arg.authToken ≠ "" then
    goHeaderSet "Authorization" ("Bearer " ++ arg.authToken) hs
  else if arg.authUsername ≠ "" ∧ arg.authPassword ≠ "" then
    setBasicAuth arg.authUsername arg.authPassword hs
  else if arg.authOAuth2Token ≠ "" then
    goHeaderSet "Authorization" ("Bearer " ++ arg.authOAuth2Token) hs
  else hs

/-- Embedding of the server resolution of the handler (converter.go lines
95-98): the explicit `openapi|server_addr` value if non-empty, else the
bound server if any, else empty. -/
def resolveServerURL (server : Option String) (addr : String) : String :=
  if addr = "" then
    match server with
    | some u => u
    | none => ""
  else addr

/-- Embedding of the path-parameter substitution loop (converter.go lines
101-104): each `{name}` placeholder replaced by the stringified value. -/
def substPathParams (path : String) (ps : List (String × Json)) : String :=
  ps.foldl (fun p kv => goReplaceAll p ("\x7b" ++ kv.1 ++ "\x7d") (goStr kv.2)) path

/-- Drop leading slashes. -/
def dropLeadSlash (s : String) : String := String.mk (s.toList.dropWhile (· == '/'))

/-- Drop trailing slashes. -/
def dropTrailSlash (s : String) : String :=
  String.mk ((s.toList.reverse.dropWhile (· == '/')).reverse)

/-- Model of Go `url.JoinPath(base, path)` for the shapes the handler
produces: slash-normalized concatenation (percent-escaping and dot-segment
cleaning of the library are not modelled; no property here depends on
them).  With an empty base the result is just the path, as in Go. -/
def goJoinPath (base p : String) : String :=
  if base = "" then p else dropTrailSlash base ++ "/" ++ dropLeadSlash p

/-- Model of Go `url.Values.Encode` applied to the query arguments
(converter.go lines 117-123): key-sorted `k=v` pairs joined by `&`, both
sides query-escaped, values stringified with `%v`. -/
def encodeQuery (q : List (String × Json)) : String :=
  joinSep "&" ((sortPairs (q.map (fun kv => (kv.1, goStr kv.2)))).map
    (fun kv => queryEscape kv.1 ++ "=" ++ queryEscape kv.2))

/-- Embedding of the form-value `switch` (converter.go lines 164-173):
object values are individually JSON-encoded, anything else is stringified
with `%v`. -/
def formValue : Json → String
  | Json.obj m => jsonRender (Json.obj m)
  | v => goStr v

/-- Model of building and encoding the `url.Values` form body (converter.go
lines 161-176). -/
def encodeForm (fs : List (String × Json)) : String :=
  joinSep "&" ((sortPairs (fs.map (fun kv => (kv.1, formValue kv.2)))).map
    (fun kv => queryEscape kv.1 ++ "=" ++ queryEscape kv.2))

/-- Embedding of the request assembly of the handler closure returned by
`newHandler` (converter.go lines 94-177): URL from resolved server, path
substitution and query; JSON body and forced `application/json` content
type when a body argument is present; user headers added first; then the
authentication chain; finally, if form fields are present, the form
encoding replaces the body and the content type is overridden to
`application/x-www-form-urlencoded`. -/
def buildRequest (server : Option String) (path method : String) (arg : Args) :
    HttpRequest :=
  let serverURL := resolveServerURL server arg.serverAddr
  let finalPath := substPathParams path arg.path
  let fullURL := goJoinPath serverURL finalPath
  let urlQ := if arg.query.isEmpty then fullURL else fullURL ++ "?" ++ encodeQuery arg.query
  let reqBody := arg.body.map jsonRender
  let hs0 := arg.headers.foldl (fun hs kv => goHeaderAdd kv.1 (goStr kv.2) hs) []
  let hs1 := if arg.body.isSome then goHeaderSet "Content-Type" "application/json" hs0 else hs0
  let hs2 := applyAuth arg hs1
  if arg.forms.isEmpty then
    { method := asciiUpper method, url := urlQ, headers := hs2, body := reqBody }
  else
    { method := asciiUpper method, url := urlQ,
      headers := goHeaderSet "Content-Type" "application/x-www-form-urlencoded" hs2,
      body := some (encodeForm arg.forms) }

/-- Observable outcome of one handler invocation: a returned tool result,
a returned error, or an aborted call (Go panic). -/
inductive Outcome where
  | ok (text : String)
  | err (msg : String)
  | panicked
deriving DecidableEq

/-- Embedding of the result formatting of the handler (converter.go line
189): `fmt.Sprintf("status code: %d\nresponse body: %s", ...)`. -/
def resultText (code : Nat) (body : String) : String :=
  "status code: " ++ toString code ++ "\nresponse body: " ++ body

/-- Embedding of one invocation of the handler closure (converter.go lines
91-190).  `respond` models the network: the status code and body the
resolved URL answers with.  A URL whose scheme is not http/https makes
`http.DefaultClient.Do` fail before anything is sent, which the handler
returns as an error. -/
def handlerInvoke (server : Option String) (path method : String)
    (respond : HttpRequest → Nat × String) (bag : List (String × Json)) : Outcome :=
  match getArgs bag with
  | none => Outcome.panicked
  | some arg =>
    let req := buildRequest server path method arg
    if schemeOk req.url then
      let r := respond req
      Outcome.ok (resultText r.1 r.2)
    else
      Outcome.err ("request failed: unsupported protocol scheme \x22" ++
        urlScheme req.url ++ "\x22")

/-- Model of the `openapi3.XML` fields copied by the walker. -/
structure GoXML where
  xName : String := ""
  xNs : String := ""
  xPre : String := ""
  xAttr : Bool := false
  xWrapped : Bool := false

/-- Model of one `openapi3.Schema` node as read by the walker.  Children
(`properties`, `items`, the composition lists, `not`,
`additionalProperties`) are indices into an environment `List SchemaNode`,
which lets the embedding represent the cyclic pointer graphs that
reference resolution produces; an index with no entry models a
`SchemaRef` whose `Value` is nil (skipped by the source's nil checks).
Single-valued `type` models the `Type.Is(...)` tests the source performs;
numeric bounds are modelled over `Int`. -/
structure SchemaNode where
  title : String := ""
  type : Option String := none
  description : String := ""
  defaultV : Option Json := none
  exampleV : Option Json := none
  enum : List Json := []
  format : String := ""
  oneOf : List Nat := []
  anyOf : List Nat := []
  allOf : List Nat := []
  notSchema : Option Nat := none
  nullable : Bool := false
  readOnly : Bool := false
  writeOnly : Bool := false
  deprecated : Bool := false
  allowEmptyValue : Bool := false
  uniqueItems : Bool := false
  exclusiveMin : Bool := false
  exclusiveMax : Bool := false
  min : Option Int := none
  max : Option Int := none
  multipleOf : Option Int := none
  minLength : Nat := 0
  maxLength : Option Nat := none
  pattern : String := ""
  minItems : Nat := 0
  maxItems : Option Nat := none
  minProps : Nat := 0
  maxProps : Option Nat := none
  required : List String := []
  addPropsHas : Option Bool := none
  addPropsSchema : Option Nat := none
  discriminator : Option (String × List (String × String)) := none
  properties : List (String × Nat) := []
  items : Option Nat := none
  externalDocs : Option (String × String) := none
  xml : Option GoXML := none

/-- The terminal circular-reference stub returned by
`processSchemaProperty` (converter.go lines 646-651). -/
def stubJson (t : String) : Json :=
  Json.obj [("type", Json.str "reference"),
    ("description", Json.str ("Circular reference to " ++ t)),
    ("title", Json.str t)]

/-- Model of the Go map assignment `visited[refKey] = true` on the visited
set. -/
def insertVisited (t : String) (v : List String) : List String :=
  if t ∈ v then v else v ++ [t]

set_option maxHeartbeats 1600000 in
mutual
/-- Embedding of `Converter.processSchemaProperty` (converter.go lines
639-857).  The second component of the result is the caller-visible state
of the `visited` map after the call: the Go code first mutates the shared
map (`visited[refKey] = true`) and only then switches to a private copy,
so a titled node adds its title to the caller's map while the mutations of
its subtree stay in the copy; an untitled node keeps sharing the caller's
map with its whole subtree.  `none` means the fuel ran out; a result that
is `none` for every fuel corresponds to non-termination of the source
recursion. -/
def processSchemaProperty (env : List SchemaNode) :
    Nat → SchemaNode → List String → Option (Json × List String)
  | 0, _, _ => none
  | Nat.succ n, s, visited =>
    if s.title ≠ "" ∧ s.title ∈ visited then
      some (stubJson s.title, visited)
    else
      let v0 := if s.title ≠ "" then insertVisited s.title visited else visited
      let p1 : List (String × Json) :=
        match s.type with
        | some t => [("type", Json.str t)]
        | none => []
      let p2 := if s.title ≠ "" then p1 ++ [("title", Json.str s.title)] else p1
      let p3 := if s.description ≠ "" then p2 ++ [("description", Json.str s.description)] else p2
      let p4 := match s.defaultV with
        | some d => p3 ++ [("default", d)]
        | none => p3
      let p5 := match s.exampleV with
        | some e => p4 ++ [("example", e)]
        | none => p4
      let p6 := if s.enum.isEmpty then p5 else p5 ++ [("enum", Json.arr s.enum)]
      let p7 := if s.format ≠ "" then p6 ++ [("format", Json.str s.format)] else p6
      do
      let st1 ←
        if s.oneOf.isEmpty then some (p7, v0) else
          match walkRefs env n s.oneOf v0 with
          | none => none
          | some (ds, v') =>
            some (if ds.isEmpty then p7 else p7 ++ [("oneOf", Json.arr ds)], v')
      let st2 ←
        if s.anyOf.isEmpty then some st1 else
          match walkRefs env n s.anyOf st1.2 with
          | none => none
          | some (ds, v') =>
            some (if ds.isEmpty then st1.1 else st1.1 ++ [("anyOf", Json.arr ds)], v')
      let st3 ←
        if s.allOf.isEmpty then some st2 else
          match walkRefs env n s.allOf st2.2 with
          | none => none
          | some (ds, v') =>
            some (if ds.isEmpty then st2.1 else st2.1 ++ [("allOf", Json.arr ds)], v')
      let st4 ←
        match s.notSchema with
        | some j =>
          match env.get? j with
          | some sc =>
            match processSchemaProperty env n sc st3.2 with
            | none => none
            | some (d, v') => some (st3.1 ++ [("not", d)], v')
          | none => some st3
        | none => some st3
      let q1 := if s.nullable then st4.1 ++ [("nullable", Json.bool s.nullable)] else st4.1
      let q2 := if s.readOnly then q1 ++ [("readOnly", Json.bool s.readOnly)] else q1
      let q3 := if s.writeOnly then q2 ++ [("writeOnly", Json.bool s.writeOnly)] else q2
      let q4 := if s.deprecated then q3 ++ [("deprecated", Json.bool s.deprecated)] else q3
      let q5 := if s.allowEmptyValue then q4 ++ [("allowEmptyValue", Json.bool s.allowEmptyValue)] else q4
      let q6 := if s.uniqueItems then q5 ++ [("uniqueItems", Json.bool s.uniqueItems)] else q5
      let q7 := if s.exclusiveMin then q6 ++ [("exclusiveMinimum", Json.bool s.exclusiveMin)] else q6
      let q8 := if s.exclusiveMax then q7 ++ [("exclusiveMaximum", Json.bool s.exclusiveMax)] else q7
      let r1 := match s.min with
        | some m => q8 ++ [("minimum", Json.num m)]
        | none => q8
      let r2 := match s.max with
        | some m => r1 ++ [("maximum", Json.num m)]
        | none => r1
      let r3 := match s.multipleOf with
        | some m => r2 ++ [("multipleOf", Json.num m)]
        | none => r2
      let r4 := if s.minLength ≠ 0 then r3 ++ [("minLength", Json.num (Int.ofNat s.minLength))] else r3
      let r5 := match s.maxLength with
        | some m => r4 ++ [("maxLength", Json.num (Int.ofNat m))]
        | none => r4
      let r6 := if s.pattern ≠ "" then r5 ++ [("pattern", Json.str s.pattern)] else r5
      let r7 := if s.minItems ≠ 0 then r6 ++ [("minItems", Json.num (Int.ofNat s.minItems))] else r6
      let r8 := match s.maxItems with
        | some m => r7 ++ [("maxItems", Json.num (Int.ofNat m))]
        | none => r7
      let r9 := if s.minProps ≠ 0 then r8 ++ [("minProperties", Json.num (Int.ofNat s.minProps))] else r8
      let r10 := match s.maxProps with
        | some m => r9 ++ [("maxProperties", Json.num (Int.ofNat m))]
        | none => r9
      let r11 := if s.required ≠ [] then
          r10 ++ [("required", Json.arr (s.required.map Json.str))]
        else r10
      let st5 ←
        match s.addPropsHas with
        | some b => some (r11 ++ [("additionalProperties", Json.bool b)], st4.2)
        | none =>
          match s.addPropsSchema with
          | some j =>
            match env.get? j with
            | some sc =>
              match processSchemaProperty env n sc st4.2 with
              | none => none
              | some (d, v') => some (r11 ++ [("additionalProperties", d)], v')
            | none => some (r11, st4.2)
          | none => some (r11, st4.2)
      let u1 := match s.discriminator with
        | some (pn, mapping) =>
          st5.1 ++ [("discriminator", Json.obj
            ([("propertyName", Json.str pn)] ++
              (if mapping ≠ [] then
                [("mapping", Json.obj (mapping.map (fun kv => (kv.1, Json.str kv.2))))]
              else [])))]
        | none => st5.1
      let st6 ←
        if s.type == some "object" ∧ s.properties ≠ [] then
          match walkProps env n s.properties st5.2 with
          | none => none
          | some (ps, v') => some (u1 ++ [("properties", Json.obj ps)], v')
        else some (u1, st5.2)
      let st7 ←
        if s.type == some "array" then
          match s.items with
          | some j =>
            match env.get? j with
            | some it =>
              match processSchemaItems env n it st6.2 with
              | none => none
              | some (d, v') => some (st6.1 ++ [("items", d)], v')
            | none => some st6
          | none => some st6
        else some st6
      let w1 := match s.externalDocs with
        | some (strDesc, strUrl) =>
          st7.1 ++ [("externalDocs", Json.obj
            ((if strDesc ≠ "" then [("description", Json.str strDesc)] else []) ++
             (if strUrl ≠ "" then [("url", Json.str strUrl)] else [])))]
        | none => st7.1
      let w2 := match s.xml with
        | some x =>
          w1 ++ [("xml", Json.obj
            ((if x.xName ≠ "" then [("name", Json.str x.xName)] else []) ++
             (if x.xNs ≠ "" then [("namespace", Json.str x.xNs)] else []) ++
             (if x.xPre ≠ "" then [("prefix", Json.str x.xPre)] else []) ++
             [("attribute", Json.bool x.xAttr), ("wrapped", Json.bool x.xWrapped)]))]
        | none => w1
      some (Json.obj w2, if s.title ≠ "" then v0 else st7.2)

/-- Embedding of `Converter.processSchemaItems` (converter.go lines
595-623).  Note that, unlike `processSchemaProperty`, this function
performs no circular-reference check of its own: it recurses into nested
`items` unconditionally. -/
def processSchemaItems (env : List SchemaNode) :
    Nat → SchemaNode → List String → Option (Json × List String)
  | 0, _, _ => none
  | Nat.succ n, s, visited => do
    let q1 : List (String × Json) :=
      match s.type with
      | some t => [("type", Json.str t)]
      | none => []
    let q2 := if s.description ≠ "" then q1 ++ [("description", Json.str s.description)] else q1
    let st1 ←
      if s.properties.isEmpty then some (q2, visited) else
        match walkProps env n s.properties visited with
        | none => none
        | some (ps, v') => some (q2 ++ [("properties", Json.obj ps)], v')
    let st2 ←
      match s.items with
      | some j =>
        match env.get? j with
        | some it =>
          match processSchemaItems env n it st1.2 with
          | none => none
          | some (d, v') => some (st1.1 ++ [("items", d)], v')
        | none => some st1
      | none => some st1
    some (Json.obj st2.1, st2.2)

/-- The loops over composition lists (`oneOf`/`anyOf`/`allOf` in
converter.go lines 687-721): walk each reference whose value is present,
threading the shared visited map left to right. -/
def walkRefs (env : List SchemaNode) :
    Nat → List Nat → List String → Option (List Json × List String)
  | 0, _, _ => none
  | Nat.succ _, [], v => some ([], v)
  | Nat.succ n, j :: rest, v =>
    match env.get? j with
    | none => walkRefs env n rest v
    | some sc =>
      match processSchemaProperty env n sc v with
      | none => none
      | some (d, v1) =>
        match walkRefs env n rest v1 with
        | none => none
        | some (ds, v2) => some (d :: ds, v2)

/-- The loops over named properties (converter.go lines 607-614 and
813-819): walk each property whose value is present, threading the shared
visited map left to right. -/
def walkProps (env : List SchemaNode) :
    Nat → List (String × Nat) → List String → Option (List (String × Json) × List String)
  | 0, _, _ => none
  | Nat.succ _, [], v => some ([], v)
  | Nat.succ n, (nm, j) :: rest, v =>
    match env.get? j with
    | none => walkProps env n rest v
    | some sc =>
      match processSchemaProperty env n sc v with
      | none => none
      | some (d, v1) =>
        match walkProps env n rest v1 with
        | none => none
        | some (ds, v2) => some ((nm, d) :: ds, v2)
end

/-- Termination of the walk on a node: some fuel makes it return a
result.  Because each recursive call consumes one unit of fuel, this holds
exactly when the source recursion terminates on the node. -/
def walkTerminates (env : List SchemaNode) (s : SchemaNode) : Prop :=
  ∃ n r, processSchemaProperty env n s [] = some r

/-! Helper lemmas about headers, schemes, and the argument fold. -/

lemma getHeader_set_self (k v : String) (hs : List (String × String)) :
    getHeader k (goHeaderSet k v hs) = some v := by
  induction hs with
  | nil => simp [getHeader, goHeaderSet]
  | cons a rest ih =>
    by_cases h : (asciiLower a.1 == asciiLower k) = true
    · simp only [goHeaderSet, List.filter_cons, h, Bool.not_true] at ih ⊢
      exact ih
    · simp only [Bool.not_eq_true] at h
      simp only [goHeaderSet, List.filter_cons, h, Bool.not_false, getHeader,
        List.find?, h] at ih ⊢
      exact ih

lemma getHeader_set_ne (k k' v : String) (hs : List (String × String))
    (hne : asciiLower k ≠ asciiLower k') :
    getHeader k (goHeaderSet k' v hs) = getHeader k hs := by
  induction hs with
  | nil =>
    have : (asciiLower k' == asciiLower k) = false := by
      simp [beq_eq_false_iff_ne]
      exact fun h => hne h.symm
    simp [getHeader, goHeaderSet, this]
  | cons a rest ih =>
    by_cases h : (asciiLower a.1 == asciiLower k') = true
    · have hak : (asciiLower a.1 == asciiLower k) = false := by
        have := eq_of_beq h
        simp [beq_eq_false_iff_ne, this]
        exact fun hk => hne hk.symm
      simpa [getHeader, goHeaderSet, List.filter_cons, h, List.find?, hak] using ih
    · simp only [Bool.not_eq_true] at h
      by_cases hak : (asciiLower a.1 == asciiLower k) = true
      · simp [getHeader, goHeaderSet, List.filter_cons, h, List.find?, hak]
      · simp only [Bool.not_eq_true] at hak
        simpa [getHeader, goHeaderSet, List.filter_cons, h, List.find?, hak] using ih

lemma getHeader_applyAuth (arg : Args) (hs : List (String × String)) (k : String)
    (hk : asciiLower k ≠ "authorization") :
    getHeader k (applyAuth arg hs) = getHeader k hs := by
  have hA : asciiLower k ≠ asciiLower "Authorization" := by
    intro h
    exact hk (h.trans rfl)
  unfold applyAuth setBasicAuth
  split
  · exact getHeader_set_ne _ _ _ _ hA
  · split
    · exact getHeader_set_ne _ _ _ _ hA
    · split
      · exact getHeader_set_ne _ _ _ _ hA
      · rfl

lemma schemeScan_stop_q : ∀ (l acc : List Char), schemeScan acc l = "" →
    ∀ r, schemeScan acc (l ++ '?' :: r) = "" := by
  intro l
  induction l with
  | nil => intro acc _ r; rfl
  | cons c rest ih =>
    intro acc h r
    simp only [List.cons_append, schemeScan] at h ⊢
    by_cases hc : (c == ':') = true
    · simp only [hc, if_true] at h ⊢
      exact h
    · simp only [Bool.not_eq_true] at hc
      by_cases hsc : isSchemeChar c = true
      · simp only [hc, hsc, Bool.false_eq_true, if_false, if_true] at h ⊢
        exact ih _ h _
      · simp only [Bool.not_eq_true] at hsc
        simp [hc, hsc]

lemma urlScheme_append_query (s t : String) (h : urlScheme s = "") :
    urlScheme (s ++ "?" ++ t) = "" := by
  obtain ⟨ls⟩ := s
  obtain ⟨lt⟩ := t
  have : (String.mk ls ++ "?" ++ String.mk lt) = String.mk (ls ++ '?' :: lt) := by
    show String.mk ((ls ++ ['?']) ++ lt) = String.mk (ls ++ '?' :: lt)
    simp
  rw [this]
  exact schemeScan_stop_q ls [] h lt

lemma buildRequest_url (server : Option String) (path method : String) (arg : Args) :
    (buildRequest server path method arg).url =
      (if arg.query.isEmpty then
        goJoinPath (resolveServerURL server arg.serverAddr) (substPathParams path arg.path)
      else
        goJoinPath (resolveServerURL server arg.serverAddr) (substPathParams path arg.path) ++
          "?" ++ encodeQuery arg.query) := by
  unfold buildRequest
  split <;> split <;> split <;> rfl

/-! Concrete schema environments used by the walker properties. -/

/-- Sibling-sharing environment: an untitled object whose two properties
`a` and `b` both reference the same titled schema `T` (index 1), along
disjoint branches. -/
def envC1 : List SchemaNode :=
  [{ type := some "object", properties := [("a", 1), ("b", 1)] },
   { title := "T", type := some "string" }]

/-- The parent node of `envC1`. -/
def nodeC1 : SchemaNode := { type := some "object", properties := [("a", 1), ("b", 1)] }

/-- Directly self-referential titled object: `T.properties.self = T`. -/
def envSelf : List SchemaNode :=
  [{ title := "T", type := some "object", properties := [("self", 0)] }]

/-- The node of `envSelf`. -/
def nodeSelf : SchemaNode :=
  { title := "T", type := some "object", properties := [("self", 0)] }

/-- Titled array whose `items` is itself: a cycle that re-enters through
`processSchemaItems`. -/
def envArr : List SchemaNode := [{ title := "A", type := some "array", items := some 0 }]

/-- The node of `envArr`. -/
def nodeArr : SchemaNode := { title := "A", type := some "array", items := some 0 }

lemma itemsCycleNone : ∀ n v, processSchemaItems envArr n nodeArr v = none := by
  intro n
  induction n with
  | zero => intro v; rfl
  | succ m ih =>
    intro v
    simp only [processSchemaItems,
      show nodeArr.type = some "array" from rfl,
      show nodeArr.description = "" from rfl,
      show nodeArr.properties = ([] : List (String × Nat)) from rfl,
      show nodeArr.items = some 0 from rfl,
      show envArr.get? 0 = some nodeArr from rfl]
    simp [ih]

lemma propCycleNoneNil : ∀ n, processSchemaProperty envArr n nodeArr [] = none := by
  intro n
  cases n with
  | zero => rfl
  | succ m =>
    simp only [processSchemaProperty,
      show nodeArr.title = "A" from rfl,
      show nodeArr.type = some "array" from rfl,
      show nodeArr.description = "" from rfl,
      show nodeArr.defaultV = (none : Option Json) from rfl,
      show nodeArr.exampleV = (none : Option Json) from rfl,
      show nodeArr.enum = ([] : List Json) from rfl,
      show nodeArr.format = "" from rfl,
      show nodeArr.oneOf = ([] : List Nat) from rfl,
      show nodeArr.anyOf = ([] : List Nat) from rfl,
      show nodeArr.allOf = ([] : List Nat) from rfl,
      show nodeArr.notSchema = (none : Option Nat) from rfl,
      show nodeArr.addPropsHas = (none : Option Bool) from rfl,
      show nodeArr.addPropsSchema = (none : Option Nat) from rfl,
      show nodeArr.properties = ([] : List (String × Nat)) from rfl,
      show nodeArr.items = some 0 from rfl,
      show envArr.get? 0 = some nodeArr from rfl]
    simp [itemsCycleNone]

lemma argStep_openapi_nonstr (arg : Args) (k : String) (v : Json)
    (hk : strHasPre "openapi|" k = true) (hv : v.isStr = false) :
    argStep arg k v = none := by
  unfold argStep
  rw [if_pos hk]
  cases v <;> simp_all [Json.isStr]

lemma getArgsFrom_bad : ∀ (bag : List (String × Json)) (arg : Args) (k : String) (v : Json),
    (k, v) ∈ bag → strHasPre "openapi|" k = true → v.isStr = false →
    getArgsFrom arg bag = none := by
  intro bag
  induction bag with
  | nil => intro arg k v hm; exact absurd hm (List.not_mem_nil _)
  | cons kv rest ih =>
    intro arg k v hm hk hv
    rcases List.mem_cons.mp hm with heq | htail
    · unfold getArgsFrom
      rw [← heq, argStep_openapi_nonstr arg k v hk hv]
    · unfold getArgsFrom
      cases h : argStep arg kv.1 kv.2 with
      | none => rfl
      | some a => exact ih a k v htail hk hv

lemma argStep_isSome (arg : Args) (k : String) (v : Json)
    (h : strHasPre "openapi|" k = true → v.isStr = true) :
    (argStep arg k v).isSome = true := by
  unfold argStep
  by_cases hk : strHasPre "openapi|" k = true
  · rw [if_pos hk]
    cases v <;> simp_all [Json.isStr]
  · rw [if_neg hk]
    repeat' split
    all_goals rfl

lemma getArgsFrom_isSome : ∀ (bag : List (String × Json)) (arg : Args),
    (∀ k v, (k, v) ∈ bag → strHasPre "openapi|" k = true → v.isStr = true) →
    (getArgsFrom arg bag).isSome = true := by
  intro bag
  induction bag with
  | nil => intro arg _; rfl
  | cons kv rest ih =>
    intro arg h
    have h1 : (argStep arg kv.1 kv.2).isSome = true :=
      argStep_isSome arg kv.1 kv.2 (h kv.1 kv.2 (List.mem_cons_self _ _))
    unfold getArgsFrom
    cases hs : argStep arg kv.1 kv.2 with
    | none => rw [hs] at h1; exact absurd h1 (by simp)
    | some a =>
      exact ih a (fun k v hm => h k v (List.mem_cons_of_mem _ hm))

/-! Claim theorems. -/

/-- C1: the claim states that when the same titled sub-schema is reachable
along two disjoint sibling branches, `processSchemaProperty` expands it
fully in both branches.  The code violates this: the walker mutates the
caller's shared visited map (`visited[refKey] = true`) before taking its
private copy, so the first sibling's title leaks into the map seen by the
second sibling.  Evaluating the embedded walker on an untitled object with
two properties `a` and `b` that both reference the titled schema `T` shows
`a` fully expanded and `b` cut down to the circular-reference stub, and
the title `T` left in the caller's visited set. -/
theorem C1_sibling_contamination :
    processSchemaProperty envC1 8 nodeC1 [] =
      some (Json.obj [("type", Json.str "object"),
        ("properties", Json.obj
          [("a", Json.obj [("type", Json.str "string"), ("title", Json.str "T")]),
           ("b", stubJson "T")])], ["T"]) := by rfl

/-- C2 counterexample: the claim states that the walk terminates on every
cyclic `properties`/`items` graph and stubs the re-entry point.  It does
not: a titled array whose `items` is itself re-enters the cycle through
`processSchemaItems`, which has no circular-reference check, so the walk
runs out of any amount of fuel — the embedded recursion never returns. -/
theorem C2_items_cycle_not_terminating : ¬ walkTerminates envArr nodeArr := by
  rintro ⟨n, r, h⟩
  rw [propCycleNoneNil n] at h
  exact Option.noConfusion h

/-- C2 amended: on every node whose non-empty title is already in the
current branch's visited set, `processSchemaProperty` returns the terminal
stub `{type: reference, title, description: "Circular reference to
<title>"}` without recursing and without growing the visited set; this
cuts cycles that re-enter at a titled node through the property walker —
in particular the directly self-referential titled object terminates with
the stub at the re-entry point.  (Cycles re-entered only through
`processSchemaItems`, or at untitled nodes, are not cut.) -/
theorem C2_titled_reentry_stub :
    (∀ (env : List SchemaNode) (fuel : Nat) (s : SchemaNode) (visited : List String),
      fuel ≠ 0 → s.title ≠ "" → s.title ∈ visited →
      processSchemaProperty env fuel s visited = some (stubJson s.title, visited)) ∧
    processSchemaProperty envSelf 8 nodeSelf [] =
      some (Json.obj [("type", Json.str "object"), ("title", Json.str "T"),
        ("properties", Json.obj [("self", stubJson "T")])], ["T"]) := by
  constructor
  · intro env fuel s visited hf ht hv
    cases fuel with
    | zero => exact absurd rfl hf
    | succ n =>
      simp only [processSchemaProperty]
      rw [if_pos (⟨ht, hv⟩ : s.title ≠ "" ∧ s.title ∈ visited)]
  · rfl

/-- Witness for the amended C2 statement at a concrete input. -/
theorem C2_titled_reentry_stub_witness :
    processSchemaProperty envSelf 1 nodeSelf ["T"] = some (stubJson "T", ["T"]) :=
  C2_titled_reentry_stub.1 envSelf 1 nodeSelf ["T"] (by decide) (by decide) (by decide)

/-- C3 counterexample: the claim states that a non-empty bearer token —
whether `openapi|auth_token` or `openapi|auth_oauth2_token` — always takes
precedence over basic auth.  With an empty `auth_token`, a non-empty
`auth_oauth2_token` and both basic credentials present, the handler's
`else if` chain applies basic auth (`Authorization: Basic
base64("u:p")`), not the bearer token. -/
theorem C3_counterexample :
    getHeader "Authorization"
      (buildRequest (some "https://h") "/x" "get"
        { authOAuth2Token := "tok", authUsername := "u", authPassword := "p" }).headers
      = some "Basic dTpw" ∧
    "Basic dTpw" = "Basic " ++ base64Encode (asciiBytes "u:p") := ⟨rfl, rfl⟩

/-- C3 amended: at most one authentication mechanism is applied per call,
selected in the fixed order of the handler's `else if` chain: a non-empty
`openapi|auth_token` is sent as a bearer header (taking precedence over
basic auth); otherwise complete basic credentials are applied; otherwise a
non-empty `openapi|auth_oauth2_token` is sent as a bearer header;
otherwise nothing is applied.  (So basic auth takes precedence over the
OAuth2 token, contrary to the original claim.) -/
theorem C3_auth_precedence_amended :
    (∀ (arg : Args) hs, arg.authToken ≠ "" →
      applyAuth arg hs = goHeaderSet "Authorization" ("Bearer " ++ arg.authToken) hs) ∧
    (∀ (arg : Args) hs, arg.authToken = "" → arg.authUsername ≠ "" → arg.authPassword ≠ "" →
      applyAuth arg hs = setBasicAuth arg.authUsername arg.authPassword hs) ∧
    (∀ (arg : Args) hs, arg.authToken = "" →
      (arg.authUsername = "" ∨ arg.authPassword = "") → arg.authOAuth2Token ≠ "" →
      applyAuth arg hs = goHeaderSet "Authorization" ("Bearer " ++ arg.authOAuth2Token) hs) ∧
    (∀ (arg : Args) hs, arg.authToken = "" →
      (arg.authUsername = "" ∨ arg.authPassword = "") → arg.authOAuth2Token = "" →
      applyAuth arg hs = hs) := by
  refine ⟨?_, ?_, ?_, ?_⟩
  · intro arg hs h
    unfold applyAuth
    rw [if_pos h]
  · intro arg hs h hu hp
    unfold applyAuth
    rw [if_neg (by simp [h]), if_pos ⟨hu, hp⟩]
  · intro arg hs h hor ho
    unfold applyAuth
    rw [if_neg (by simp [h]), if_neg (by rcases hor with h1 | h1 <;> simp [h1]), if_pos ho]
  · intro arg hs h hor ho
    unfold applyAuth
    rw [if_neg (by simp [h]), if_neg (by rcases hor with h1 | h1 <;> simp [h1]),
      if_neg (by simp [ho])]

/-- Witness for the amended C3 statement at concrete inputs. -/
theorem C3_auth_precedence_witness :
    applyAuth { authToken := "t" } [] = goHeaderSet "Authorization" ("Bearer " ++ "t") [] ∧
    applyAuth {} [] = [] :=
  ⟨C3_auth_precedence_amended.1 { authToken := "t" } [] (by decide),
   C3_auth_precedence_amended.2.2.2 {} [] rfl (Or.inl rfl) rfl⟩

/-- C4: the `openapi|server_addr` argument follows the three-way server
count policy of `convertOperation`: no declared server gives a required
free-form string; exactly one server gives an optional string whose
default is that URL and whose enum holds only that URL; two or more
servers give a required string whose enum is the list of declared URLs
(and no default). -/
theorem C4_server_addr_policy :
    serverAddrArg [] =
      { name := "openapi|server_addr",
        description := "Server address to connect to", required := true } ∧
    (∀ u, serverAddrArg [u] =
      { name := "openapi|server_addr",
        description := "Server address to connect to", required := false,
        defaultVal := some u, enumVals := some [u] }) ∧
    (∀ servers, 2 ≤ servers.length →
      serverAddrArg servers =
        { name := "openapi|server_addr",
          description := "Server address to connect to", required := true,
          defaultVal := none, enumVals := some servers }) := by
  refine ⟨rfl, fun u => rfl, fun servers h => ?_⟩
  unfold serverAddrArg
  rw [if_neg (by simp only [beq_iff_eq]; omega), if_neg (by simp only [beq_iff_eq]; omega)]

/-- Witness for C4 at the concrete server lists of the specification. -/
theorem C4_server_addr_policy_witness :
    serverAddrArg ["https://api.example.com"] =
      { name := "openapi|server_addr",
        description := "Server address to connect to", required := false,
        defaultVal := some "https://api.example.com",
        enumVals := some ["https://api.example.com"] } ∧
    serverAddrArg ["https://a.example.com", "https://b.example.com"] =
      { name := "openapi|server_addr", description := "Server address to connect to",
        required := true, defaultVal := none,
        enumVals := some ["https://a.example.com", "https://b.example.com"] } :=
  ⟨C4_server_addr_policy.2.1 "https://api.example.com",
   C4_server_addr_policy.2.2 ["https://a.example.com", "https://b.example.com"] (by decide)⟩

/-- C6: the claim states that for the root path `/` the generated name
part after the method is the literal `root`.  The code cannot reach its
`root` branch: `strings.Split` never returns an empty slice (splitting the
empty trimmed path yields one empty part), so `GetOperationID "/" "get"
""` evaluates to `"get_"`, not `"get_root"`.  The other parts of the claim
hold: an explicit operation id is used verbatim, ordinary paths produce
`{method}_{segments joined by _, braces stripped}`, and a non-empty
configured prefix is prepended. -/
theorem C6_operation_id_eval :
    GetOperationID "/" "get" "" = "get_" ∧
    GetOperationID "/" "get" "" ≠ "get_root" ∧
    GetOperationID "/pets/\x7bid\x7d" "get" "" = "get_pets_id" ∧
    GetOperationID "/users" "post" "listUsers" = "listUsers" ∧
    applyToolNamePre "pfx_" "get_pets" = "pfx_get_pets" :=
  ⟨rfl, by decide, rfl, rfl, rfl⟩

/-- C5: the target server of an invocation is the explicit
`openapi|server_addr` argument when one is supplied (non-empty), else the
operation's single declared server when exactly one exists; with neither
available (`Convert` binds no server unless exactly one is declared) the
resolved address is empty, the assembled URL has no scheme, and the
invocation returns an error — for every possible network behaviour, so no
HTTP request is issued.  The scheme hypothesis on the substituted path
states that the operation path does not itself carry a URL scheme, which
holds for every OpenAPI path (they start with `/`). -/
theorem C5_server_resolution :
    (∀ server addr, addr ≠ "" → resolveServerURL server addr = addr) ∧
    (∀ u, resolveServerURL (some u) "" = u) ∧
    (∀ servers, servers.length ≠ 1 → selectServer servers = none) ∧
    (∀ u, selectServer [u] = some u) ∧
    (∀ path method respond bag arg, getArgs bag = some arg → arg.serverAddr = "" →
      urlScheme (substPathParams path arg.path) = "" →
      handlerInvoke none path method respond bag =
        Outcome.err ("request failed: unsupported protocol scheme \x22\x22")) := by
  refine ⟨?_, fun u => rfl, ?_, fun u => rfl, ?_⟩
  · intro server addr h
    unfold resolveServerURL
    rw [if_neg h]
  · intro servers h
    unfold selectServer
    rw [if_neg (by simp only [beq_iff_eq]; exact h)]
  · intro path method respond bag arg hga hsa hsch
    have hjoin : goJoinPath (resolveServerURL none arg.serverAddr)
        (substPathParams path arg.path) = substPathParams path arg.path := by
      rw [hsa]
      rfl
    have hscheme : urlScheme (buildRequest none path method arg).url = "" := by
      rw [buildRequest_url, hjoin]
      by_cases hq : arg.query.isEmpty
      · rw [if_pos hq]
        exact hsch
      · rw [if_neg hq]
        exact urlScheme_append_query _ _ hsch
    have hok : schemeOk (buildRequest none path method arg).url = false := by
      unfold schemeOk
      rw [hscheme]
      rfl
    simp only [handlerInvoke, hga, hok, Bool.false_eq_true, if_false, hscheme]
    rfl

/-- Witness for C5 at concrete inputs: one declared server resolves, and
an invocation with no server address and no bound server errors without
consulting the network. -/
theorem C5_server_resolution_witness :
    resolveServerURL (some "https://api.example.com") "" = "https://api.example.com" ∧
    handlerInvoke none "/pets" "get" (fun _ => (200, "ok")) [] =
      Outcome.err ("request failed: unsupported protocol scheme \x22\x22") :=
  ⟨C5_server_resolution.2.1 "https://api.example.com",
   C5_server_resolution.2.2.2.2 "/pets" "get" (fun _ => (200, "ok")) [] {} rfl rfl rfl⟩

/-- C7: when a body argument is present and no form fields are supplied,
the request payload is exactly the JSON serialization of the body value
and the `Content-Type` header is forced to `application/json`; when form
fields are also present, the form encoding replaces the payload and the
content type is overridden to `application/x-www-form-urlencoded`, with
object-valued form fields individually JSON-encoded. -/
theorem C7_body_form_content_type :
    (∀ server path method (arg : Args) v, arg.body = some v → arg.forms = [] →
      (buildRequest server path method arg).body = some (jsonRender v) ∧
      getHeader "Content-Type" (buildRequest server path method arg).headers =
        some "application/json") ∧
    (∀ server path method (arg : Args) v, arg.body = some v → arg.forms ≠ [] →
      (buildRequest server path method arg).body = some (encodeForm arg.forms) ∧
      getHeader "Content-Type" (buildRequest server path method arg).headers =
        some "application/x-www-form-urlencoded") ∧
    (∀ m, formValue (Json.obj m) = jsonRender (Json.obj m)) := by
  have hct : asciiLower "Content-Type" ≠ "authorization" := by decide
  refine ⟨?_, ?_, fun m => rfl⟩
  · intro server path method arg v hb hf
    have hfe : arg.forms.isEmpty = true := by
      rw [hf]
      rfl
    have hbs : arg.body.isSome = true := by
      rw [hb]
      rfl
    constructor
    · simp only [buildRequest, hfe, if_true, hb]
      rfl
    · simp only [buildRequest, hfe, if_true, hbs]
      rw [getHeader_applyAuth _ _ _ hct]
      exact getHeader_set_self _ _ _
  · intro server path method arg v hb hf
    have hfe : arg.forms.isEmpty = false := by
      cases hq : arg.forms with
      | nil => exact absurd hq hf
      | cons a l => rfl
    constructor
    · simp only [buildRequest, hfe, Bool.false_eq_true, if_false]
    · simp only [buildRequest, hfe, Bool.false_eq_true, if_false]
      exact getHeader_set_self _ _ _

/-- Witness for C7 at a concrete body argument and a concrete form
field. -/
theorem C7_body_form_content_type_witness :
    (buildRequest (some "https://h") "/x" "post"
        { body := some (Json.obj [("name", Json.str "a")]) }).body =
      some (jsonRender (Json.obj [("name", Json.str "a")])) ∧
    getHeader "Content-Type" (buildRequest (some "https://h") "/x" "post"
        { body := some (Json.obj [("name", Json.str "a")]) }).headers =
      some "application/json" ∧
    (buildRequest (some "https://h") "/x" "post"
        { body := some (Json.obj [("name", Json.str "a")]),
          forms := [("f", Json.num 1)] }).body =
      some (encodeForm [("f", Json.num 1)]) :=
  ⟨(C7_body_form_content_type.1 (some "https://h") "/x" "post"
      { body := some (Json.obj [("name", Json.str "a")]) }
      (Json.obj [("name", Json.str "a")]) rfl rfl).1,
   (C7_body_form_content_type.1 (some "https://h") "/x" "post"
      { body := some (Json.obj [("name", Json.str "a")]) }
      (Json.obj [("name", Json.str "a")]) rfl rfl).2,
   (C7_body_form_content_type.2.1 (some "https://h") "/x" "post"
      { body := some (Json.obj [("name", Json.str "a")]),
        forms := [("f", Json.num 1)] }
      (Json.obj [("name", Json.str "a")]) rfl (by simp)).1⟩

/-- C8: when the HTTP call completes with status code `c` and response
body `b`, the returned tool result text is exactly the two-line string
`status code: {c}\nresponse body: {b}`. -/
theorem C8_result_text_format :
    ∀ server path method bag arg respond (c : Nat) (b : String),
      getArgs bag = some arg →
      schemeOk (buildRequest server path method arg).url = true →
      respond (buildRequest server path method arg) = (c, b) →
      handlerInvoke server path method respond bag =
        Outcome.ok ("status code: " ++ toString c ++ "\nresponse body: " ++ b) := by
  intro server path method bag arg respond c b hga hok hresp
  simp only [handlerInvoke, hga, hok, if_true, hresp, resultText]

/-- Witness for C8: a concrete invocation whose network model answers 200
with body `ok` yields the literal two-line result. -/
theorem C8_result_text_format_witness :
    handlerInvoke none "/pets/\x7bid\x7d" "get" (fun _ => (200, "ok"))
      [("path|id", Json.str "42"), ("openapi|server_addr", Json.str "https://api.example.com")] =
      Outcome.ok "status code: 200\nresponse body: ok" :=
  C8_result_text_format none "/pets/\x7bid\x7d" "get"
    [("path|id", Json.str "42"), ("openapi|server_addr", Json.str "https://api.example.com")]
    ((getArgs [("path|id", Json.str "42"),
      ("openapi|server_addr", Json.str "https://api.example.com")]).getD {})
    (fun _ => (200, "ok")) 200 "ok" rfl rfl rfl

/-- C9: every `openapi|{subkey}` argument whose subkey is none of the five
recognized ones — which includes every synthesized apiKey argument
`openapi|auth_{schemeName}` produced by `convertSecurityRequirements` — is
assigned to the bearer-token slot by `getArgs`, so at invocation time the
credential is sent as an `Authorization: Bearer` header: the
authentication chain touches no header other than `Authorization`, and
the request URL (hence the query string) is independent of the token, so
the credential is not placed in the scheme's declared query/header/cookie
location. -/
theorem C9_openapi_default_bearer :
    (∀ (arg : Args) sub s,
      sub ∉ ["server_addr", "auth_token", "auth_username", "auth_password",
        "auth_oauth2_token"] →
      setOpenapiArg arg sub s = { arg with authToken := s }) ∧
    argStep {} "openapi|auth_myKey" (Json.str "k1") = some { authToken := "k1" } ∧
    (∀ schemeName (sch : SecurityScheme) scopes, sch.type = "apiKey" →
      (securityArgForScheme schemeName sch scopes).map ArgSpec.name =
        ["openapi|auth_" ++ schemeName] ∧
      (securityArgForScheme schemeName sch scopes).map ArgSpec.required = [true]) ∧
    (∀ (arg : Args) hs, arg.authToken ≠ "" →
      getHeader "Authorization" (applyAuth arg hs) = some ("Bearer " ++ arg.authToken)) ∧
    (∀ (arg : Args) hs k, asciiLower k ≠ "authorization" →
      getHeader k (applyAuth arg hs) = getHeader k hs) ∧
    (∀ server path method (arg : Args) t,
      (buildRequest server path method { arg with authToken := t }).url =
        (buildRequest server path method arg).url) := by
  refine ⟨?_, rfl, ?_, ?_, ?_, ?_⟩
  · intro arg sub s hmem
    simp only [List.mem_cons, List.mem_singleton, not_or] at hmem
    obtain ⟨h1, h2, h3, h4, h5, -⟩ := hmem
    simp [setOpenapiArg, h1, h2, h3, h4, h5]
  · intro schemeName sch scopes ht
    constructor <;> simp [securityArgForScheme, ht]
  · intro arg hs h
    unfold applyAuth
    rw [if_pos h]
    exact getHeader_set_self _ _ _
  · intro arg hs k hk
    exact getHeader_applyAuth arg hs k hk
  · intro server path method arg t
    rw [buildRequest_url, buildRequest_url]

/-- Witness for C9 at concrete inputs: an unrecognized subkey lands in the
bearer-token slot and surfaces as a bearer `Authorization` header. -/
theorem C9_openapi_default_bearer_witness :
    setOpenapiArg {} "auth_custom" "v" = { authToken := "v" } ∧
    getHeader "Authorization" (applyAuth { authToken := "k1" } []) =
      some ("Bearer " ++ "k1") :=
  ⟨C9_openapi_default_bearer.1 {} "auth_custom" "v" (by decide),
   C9_openapi_default_bearer.2.2.2.1 { authToken := "k1" } [] (by decide)⟩

/-- C10: `getArgs` is total exactly on bags whose `openapi|`-prefixed
entries carry string values: any `openapi|` key with a non-string value
makes the unchecked `v.(string)` assertion panic (the invocation aborts
instead of returning an error result), while a bag whose `openapi|`
entries are all strings demultiplexes successfully; keys matching no
recognized shape are silently ignored. -/
theorem C10_getargs_totality :
    (∀ bag k v, (k, v) ∈ bag → strHasPre "openapi|" k = true → v.isStr = false →
      getArgs bag = none) ∧
    (∀ bag, (∀ k v, (k, v) ∈ bag → strHasPre "openapi|" k = true → v.isStr = true) →
      (getArgs bag).isSome = true) ∧
    (∀ server path method respond bag k v, (k, v) ∈ bag →
      strHasPre "openapi|" k = true → v.isStr = false →
      handlerInvoke server path method respond bag = Outcome.panicked) ∧
    (∀ (arg : Args) k v, strHasPre "openapi|" k = false → (k == "body") = false →
      strHasPre "query|" k = false → strHasPre "path|" k = false →
      strHasPre "header|" k = false → strHasPre "formData|" k = false →
      argStep arg k v = some arg) := by
  refine ⟨?_, ?_, ?_, ?_⟩
  · intro bag k v hm hk hv
    exact getArgsFrom_bad bag {} k v hm hk hv
  · intro bag h
    exact getArgsFrom_isSome bag {} h
  · intro server path method respond bag k v hm hk hv
    unfold handlerInvoke
    rw [show getArgs bag = none from getArgsFrom_bad bag {} k v hm hk hv]
  · intro arg k v h1 h2 h3 h4 h5 h6
    simp [argStep, h1, h2, h3, h4, h5, h6]

/-- Witness for C10: a numeric `openapi|auth_token` value aborts the
invocation, and an unrecognized key changes nothing. -/
theorem C10_getargs_totality_witness :
    getArgs [("openapi|auth_token", Json.num 3)] = none ∧
    handlerInvoke none "/x" "get" (fun _ => (200, ""))
      [("openapi|auth_token", Json.num 3)] = Outcome.panicked ∧
    argStep {} "unknown" (Json.str "z") = some {} :=
  ⟨C10_getargs_totality.1 [("openapi|auth_token", Json.num 3)] "openapi|auth_token"
      (Json.num 3) (List.mem_singleton.mpr rfl) rfl rfl,
   C10_getargs_totality.2.2.1 none "/x" "get" (fun _ => (200, ""))
      [("openapi|auth_token", Json.num 3)] "openapi|auth_token" (Json.num 3)
      (List.mem_singleton.mpr rfl) rfl rfl,
   C10_getargs_totality.2.2.2 {} "unknown" (Json.str "z") rfl rfl rfl rfl rfl rfl⟩
